import Mathlib

/-!
Verification development for the M2M (Molt To Molt) agent communication
system: a shallow embedding of the agent SDK (`agent.js`), the hub server
(`hub.js`) and their protocol, with theorems about the spec's claims.

Modelling conventions:
* JavaScript values carried in messages are modelled by the inductive `JVal`
  (JSON values with integer numerics; IEEE floats are outside the embedding).
* The external Node primitives (`JSON.parse` / `JSON.stringify`,
  `crypto` X25519 + AES-256-GCM) are not repository code; they are modelled
  executably: the JSON codec by a small real parser/printer over the same
  grammar fragment, the AEAD symbolically (see `Crypto.GcmToken`).
* Asynchronous, event-driven code is modelled as explicit step functions on
  state records, with the event (arriving frame, timer firing, socket close)
  as input and randomness (key seeds, nonces, minted ids) as parameters.
* The hub's SQL statements are modelled as pure functions on a list of
  `AgentRec` rows; timestamps are milliseconds as `Nat`.
-/

namespace M2M

/-- JSON values as carried in M2M payloads.  Numerics are restricted to
integers (JavaScript numbers are IEEE doubles; none of the claims depends on
non-integer numerics). -/
inductive JVal : Type where
  | jnull : JVal
  | jbool : Bool → JVal
  | jnum : Int → JVal
  | jstr : String → JVal
  | jarr : List JVal → JVal
  | jobj : List (String × JVal) → JVal
deriving Repr

/-- Escape a single character the way `JSON.stringify` does (quote,
backslash and the common control characters). -/
def escC (c : Char) : List Char :=
  if c = '"' then ['\\', '"']
  else if c = '\\' then ['\\', '\\']
  else if c = '\n' then ['\\', 'n']
  else if c = '\t' then ['\\', 't']
  else if c = '\r' then ['\\', 'r']
  else [c]

/-- Escape the characters of a string for JSON output. -/
def escString (s : String) : String :=
  String.mk (s.toList.foldr (fun c acc => escC c ++ acc) [])

/-- Quote a string as a JSON string literal. -/
def quoteStr (s : String) : String :=
  "\"" ++ escString s ++ "\""

mutual
/-- Model of `JSON.stringify` on the `JVal` fragment (external Node
primitive; object member order is insertion order, as in V8). -/
def stringify : JVal → String
  | .jnull => "null"
  | .jbool true => "true"
  | .jbool false => "false"
  | .jnum n => toString n
  | .jstr s => quoteStr s
  | .jarr vs => "[" ++ stringifyItems vs ++ "]"
  | .jobj ms => "\x7b" ++ stringifyMembers ms ++ "\x7d"

/-- Comma-separated rendering of array elements. -/
def stringifyItems : List JVal → String
  | [] => ""
  | [v] => stringify v
  | v :: vs => stringify v ++ "," ++ stringifyItems vs

/-- Comma-separated rendering of object members. -/
def stringifyMembers : List (String × JVal) → String
  | [] => ""
  | [(k, v)] => quoteStr k ++ ":" ++ stringify v
  | (k, v) :: ms => quoteStr k ++ ":" ++ stringify v ++ "," ++ stringifyMembers ms
end

/-- Whitespace characters skipped by the JSON grammar. -/
def isWsChar (c : Char) : Bool :=
  c = ' ' || c = '\n' || c = '\t' || c = '\r'

/-- Drop leading JSON whitespace. -/
def skipWs : List Char → List Char
  | [] => []
  | c :: cs => if isWsChar c then skipWs cs else c :: cs

/-- Table of JSON escape letters and the characters they stand for. -/
def escTable : List (Char × Char) :=
  [('n', '\n'), ('t', '\t'), ('r', '\r'), ('b', '\x08'), ('f', '\x0c'),
   ('"', '"'), ('\\', '\\'), ('/', '/')]

/-- Unescape one character after a backslash in a JSON string literal
(the fragment omits unicode escapes). -/
def escChar (c : Char) : Option Char :=
  escTable.lookup c

/-- Read the characters of a JSON string literal up to the closing quote;
returns the content and the remaining input. -/
def readStrChars : List Char → Option (List Char × List Char)
  | [] => none
  | c :: cs =>
    if c = '"' then some ([], cs)
    else if c = '\\' then
      match cs with
      | [] => none
      | e :: cs2 =>
        match escChar e with
        | some ec =>
          match readStrChars cs2 with
          | some (s, r) => some (ec :: s, r)
          | none => none
        | none => none
    else
      match readStrChars cs with
      | some (s, r) => some (c :: s, r)
      | none => none

/-- Accumulate a run of decimal digits. -/
def readDigits : List Char → Nat → Nat × List Char
  | [], acc => (acc, [])
  | c :: cs, acc =>
    if c.isDigit then readDigits cs (acc * 10 + (c.toNat - 48)) else (acc, c :: cs)

/-- Expect a literal character sequence, returning the rest of the input. -/
def dropLit : List Char → List Char → Option (List Char)
  | [], cs => some cs
  | _ :: _, [] => none
  | p :: ps, c :: cs => if c = p then dropLit ps cs else none

mutual
/-- Recursive-descent JSON value parser (fuel-indexed for termination). -/
def parseVal : Nat → List Char → Option (JVal × List Char)
  | 0, _ => none
  | f + 1, cs =>
    match skipWs cs with
    | [] => none
    | c :: r =>
      if c = '"' then
        match readStrChars r with
        | some (s, rest) => some (.jstr (String.mk s), rest)
        | none => none
      else if c = 't' then
        match dropLit ['r', 'u', 'e'] r with
        | some rest => some (.jbool true, rest)
        | none => none
      else if c = 'f' then
        match dropLit ['a', 'l', 's', 'e'] r with
        | some rest => some (.jbool false, rest)
        | none => none
      else if c = 'n' then
        match dropLit ['u', 'l', 'l'] r with
        | some rest => some (.jnull, rest)
        | none => none
      else if c = '[' then
        match parseItems f r with
        | some (vs, rest) => some (.jarr vs, rest)
        | none => none
      else if c = '\x7b' then
        match parseMembers f r with
        | some (ms, rest) => some (.jobj ms, rest)
        | none => none
      else if c = '-' then
        match r with
        | d :: _ =>
          if d.isDigit then
            let p := readDigits r 0
            some (.jnum (-(p.1 : Int)), p.2)
          else none
        | [] => none
      else if c.isDigit then
        let p := readDigits (c :: r) 0
        some (.jnum (p.1 : Int), p.2)
      else none

/-- Parse the items of a JSON array after the opening bracket. -/
def parseItems : Nat → List Char → Option (List JVal × List Char)
  | 0, _ => none
  | f + 1, cs =>
    match skipWs cs with
    | [] => none
    | c :: r =>
      if c = ']' then some ([], r)
      else
        match parseVal f (c :: r) with
        | none => none
        | some (v, rest) =>
          match skipWs rest with
          | ',' :: r2 =>
            match parseItems f r2 with
            | some (v2 :: vs, r3) => some (v :: v2 :: vs, r3)
            | _ => none
          | ']' :: r2 => some ([v], r2)
          | _ => none

/-- Parse the members of a JSON object after the opening brace. -/
def parseMembers : Nat → List Char → Option (List (String × JVal) × List Char)
  | 0, _ => none
  | f + 1, cs =>
    match skipWs cs with
    | '\x7d' :: r => some ([], r)
    | '"' :: r =>
      match readStrChars r with
      | none => none
      | some (k, r1) =>
        match skipWs r1 with
        | ':' :: r2 =>
          match parseVal f r2 with
          | none => none
          | some (v, rest) =>
            match skipWs rest with
            | ',' :: r3 =>
              match parseMembers f r3 with
              | some (m :: ms, r4) => some ((String.mk k, v) :: m :: ms, r4)
              | _ => none
            | '\x7d' :: r3 => some ([(String.mk k, v)], r3)
            | _ => none
        | _ => none
    | _ => none
end

/-- Model of `JSON.parse` (external Node primitive): parse a whole string as
one JSON value, allowing surrounding whitespace, rejecting trailing input. -/
def parseJson (s : String) : Option JVal :=
  match parseVal (2 * s.length + 2) s.toList with
  | some (v, rest) => if skipWs rest = [] then some v else none
  | none => none

namespace Crypto

/-- Modelled from the spec: the AES-256-GCM seal/open pair of `agent.js`
(`Crypto.encrypt` / `Crypto.decrypt`) calls Node's external `crypto`
library, which is not repository code.  The AEAD is idealized symbolically,
per spec 4.1: a sealed token records the 12-byte random nonce (carried in
the clear at the front of the wire token), the sealing key, and the UTF-8
plaintext; the GCM tag is modelled as binding exactly (key, nonce,
ciphertext), so opening under the sealing key yields the plaintext and
opening under any other key fails authentication and yields null.  The
base64 wire encoding is a bijection and is treated as the identity. -/
structure GcmToken : Type where
  nonce : List Nat
  sealKey : List Nat
  text : String
deriving Repr, DecidableEq

/-- Text sent through the cipher, from `agent.js` line 59:
a string payload is passed through, any other value is stringified. -/
def toText : JVal → String
  | .jstr s => s
  | v => stringify v

/-- Embeds `Crypto.encrypt` (`agent.js` 56-62).  The random nonce is an
explicit parameter. -/
def encrypt (data : JVal) (key : List Nat) (nonce : List Nat) : GcmToken :=
  { nonce := nonce, sealKey := key, text := toText data }

/-- Embeds `Crypto.decrypt` (`agent.js` 64-74): on authentication failure
(any key other than the sealing key) return null; on success try
`JSON.parse` and fall back to the raw text. -/
def decrypt (encrypted : GcmToken) (key : List Nat) : Option JVal :=
  if encrypted.sealKey = key then
    some
      (match parseJson encrypted.text with
       | some v => v
       | none => .jstr encrypted.text)
  else none

/-- Modelled from the spec: X25519 ECDH (`Crypto.deriveKey`) is Node's
external `crypto` library.  Key pairs are reduced to their random seed; the
shared secret of two seeds is the sorted pair, which is symmetric in its
arguments as ECDH requires. -/
def dhShared (a b : Nat) : List Nat :=
  if a ≤ b then [a, b] else [b, a]

end Crypto

/-- One row of the hub's `agents` table (`hub.js` CREATE TABLE), projected
to the columns the claims are about; `metadata` and `created_at` are
carried by no modelled operation in a way the claims observe. `lastSeen`
is milliseconds. -/
structure AgentRec : Type where
  id : String
  address : String
  capabilities : List String
  status : String
  lastSeen : Nat
deriving Repr, DecidableEq

/-- Split a character list at every occurrence of a separator, exactly like
JavaScript `String.prototype.split` with a single-character separator. -/
def splitOnChar (sep : Char) : List Char → List (List Char)
  | [] => [[]]
  | c :: cs =>
    let rest := splitOnChar sep cs
    if c = sep then [] :: rest
    else
      match rest with
      | [] => [[c]]
      | chunk :: more => (c :: chunk) :: more

/-- JavaScript `s.split(sep)` for a one-character separator. -/
def jsSplit (s : String) (sep : Char) : List String :=
  (splitOnChar sep s.toList).map String.mk

/-- The address derivation of `M2MHub.handleRegister` (`hub.js` 588-594):
start from the observed remote IP; if the agent supplied a truthy address
whose second `:`-separated component (the port) is truthy, append it. -/
def deriveAddress (address : Option String) (remoteIP : String) : String :=
  match address with
  | none => remoteIP
  | some a =>
    if a = "" then remoteIP
    else
      match (jsSplit a ':')[1]? with
      | some p => if p = "" then remoteIP else remoteIP ++ ":" ++ p
      | none => remoteIP

/-- The spec's notion of "the port component of the agent-supplied
address": the second `:`-separated field, when present and non-empty. -/
def portComponent (address : Option String) : Option String :=
  match address with
  | none => none
  | some a =>
    if a = "" then none
    else
      match (jsSplit a ':')[1]? with
      | some p => if p = "" then none else some p
      | none => none

/-- Wire response of a `register` request. -/
structure RegisterResponse : Type where
  status : String
  id : String
  address : String
deriving Repr, DecidableEq

/-- Embeds `M2MHub.handleRegister` (`hub.js` 585-604): mint an id (the
random id is a parameter), derive the address, INSERT a fresh row with
status `online`, and answer ok. -/
def handleRegister (regs : List AgentRec) (address : Option String)
    (capabilities : List String) (remoteIP : String) (newId : String)
    (now : Nat) : List AgentRec × RegisterResponse :=
  let agentAddress := deriveAddress address remoteIP
  (regs ++ [{ id := newId, address := agentAddress, capabilities := capabilities,
              status := "online", lastSeen := now }],
   { status := "ok", id := newId, address := agentAddress })

/-- Wire response of a `heartbeat` request. -/
structure HeartbeatResponse : Type where
  status : String
  timestamp : Nat
deriving Repr, DecidableEq

/-- Embeds `M2MHub.handleHeartbeat` (`hub.js` 606-611): UPDATE the matching
row's `last_seen` and force `status = online`; always answer ok with the
current timestamp, whether or not a row matched. -/
def handleHeartbeat (regs : List AgentRec) (id : String) (now : Nat) :
    List AgentRec × HeartbeatResponse :=
  (regs.map fun r =>
     if r.id = id then { r with lastSeen := now, status := "online" } else r,
   { status := "ok", timestamp := now })

/-- Embeds `M2MHub.handleStatus` (`hub.js` 690-707): UPDATE `last_seen` and,
when the request carries a truthy `status` string, store that string
verbatim (there is no whitelist in the source). -/
def handleStatus (regs : List AgentRec) (id : String) (status : Option String)
    (now : Nat) : List AgentRec :=
  regs.map fun r =>
    if r.id = id then
      { r with lastSeen := now,
               status :=
                 match status with
                 | some s => if s = "" then r.status else s
                 | none => r.status }
    else r

/-- Embeds `M2MHub.handleDisconnect` (`hub.js` 709-714) and the identical
UPDATE of the ws close handler (`hub.js` 508): set the row `offline`
(leaving `last_seen` as it was). -/
def handleDisconnect (regs : List AgentRec) (id : String) : List AgentRec :=
  regs.map fun r => if r.id = id then { r with status := "offline" } else r

/-- Embeds `M2MHub.cleanup` (`hub.js` 743-753), the 30-second sweeper: the
first UPDATE demotes `online` rows idle for over 2 minutes to `idle`; the
second demotes `idle` rows idle for over 5 minutes to `offline` (and can
hit rows the first pass just demoted). -/
def cleanup (regs : List AgentRec) (now : Nat) : List AgentRec :=
  let pass1 := regs.map fun r =>
    if r.status = "online" ∧ r.lastSeen + 120000 < now then
      { r with status := "idle" }
    else r
  pass1.map fun r =>
    if r.status = "idle" ∧ r.lastSeen + 300000 < now then
      { r with status := "offline" }
    else r

/-- JavaScript `x || d` on an optional number (`0` and absence are falsy). -/
def jsOrNat : Option Nat → Nat → Nat
  | some l, d => if l = 0 then d else l
  | none, d => d

/-- CONFIG.defaultLimit of `hub.js`. -/
def defaultLimit : Nat := 100

/-- CONFIG.maxLimit of `hub.js`. -/
def maxLimit : Nat := 500

/-- The limit applied by `handleDiscover` (`hub.js` 615):
`Math.min(limit || CONFIG.defaultLimit, CONFIG.maxLimit)`. -/
def discoverLimit (limit : Option Nat) : Nat :=
  min (jsOrNat limit defaultLimit) maxLimit

/-- The limit applied by `handleFind` (`hub.js` 663):
`Math.min(limit || 10, CONFIG.maxLimit)`. -/
def findLimit (limit : Option Nat) : Nat :=
  min (jsOrNat limit 10) maxLimit

/-- The WHERE clause of the `discover` query (`hub.js` 618-639): never
`offline`, optionally excluding the caller's own id, optionally any-of on
capabilities, optionally an exact status filter. -/
def discoverPred (selfId : Option String) (capabilities : Option (List String))
    (statusFilter : Option String) (r : AgentRec) : Bool :=
  (r.status != "offline") &&
  (match selfId with
   | some i => if i = "" then true else r.id != i
   | none => true) &&
  (match capabilities with
   | some cs => if cs.isEmpty then true else cs.any fun c => r.capabilities.contains c
   | none => true) &&
  (match statusFilter with
   | some s => if s = "" then true else r.status == s
   | none => true)

/-- Insert into a list sorted by a boolean comparison. -/
def insertBy (le : α → α → Bool) (a : α) : List α → List α
  | [] => [a]
  | b :: bs => if le a b then a :: b :: bs else b :: insertBy le a bs

/-- Sorting by a boolean comparison; models SQL ORDER BY (the algorithm the
store uses is unspecified, only the ordering matters). -/
def sortBy (le : α → α → Bool) : List α → List α
  | [] => []
  | a :: as => insertBy le a (sortBy le as)

/-- Wire response of a `discover` request; agent rows are returned
projected onto the same columns `AgentRec` carries. -/
structure DiscoverResponse : Type where
  status : String
  count : Nat
  limit : Nat
  offset : Nat
  agents : List AgentRec
deriving Repr, DecidableEq

/-- Embeds `M2MHub.handleDiscover` (`hub.js` 614-660): filter, ORDER BY
last_seen ASC, OFFSET, LIMIT. -/
def handleDiscover (regs : List AgentRec) (selfId : Option String)
    (capabilities : Option (List String)) (statusFilter : Option String)
    (limit : Option Nat) (offset : Option Nat) : DiscoverResponse :=
  let queryLimit := discoverLimit limit
  let queryOffset := jsOrNat offset 0
  let rows :=
    (((sortBy (fun a b => Nat.ble a.lastSeen b.lastSeen)
        (regs.filter (discoverPred selfId capabilities statusFilter))).drop
       queryOffset).take queryLimit)
  { status := "ok", count := rows.length, limit := queryLimit,
    offset := queryOffset, agents := rows }

/-- Wire response of a `find` request. -/
structure FindResponse : Type where
  status : String
  count : Nat
  agents : List AgentRec
deriving Repr, DecidableEq

/-- Embeds `M2MHub.handleFind` (`hub.js` 662-675): rows holding the
capability and status exactly `online`, ORDER BY last_seen DESC, OFFSET,
LIMIT. -/
def handleFind (regs : List AgentRec) (capability : String)
    (limit : Option Nat) (offset : Option Nat) : FindResponse :=
  let queryLimit := findLimit limit
  let queryOffset := jsOrNat offset 0
  let rows :=
    (((sortBy (fun a b => Nat.ble b.lastSeen a.lastSeen)
        (regs.filter fun r =>
          r.capabilities.contains capability && (r.status == "online"))).drop
       queryOffset).take queryLimit)
  { status := "ok", count := rows.length, agents := rows }

/-- How a waiter in the agent's pending-request table was settled. -/
inductive HubOutcome : Type where
  | resolvedResponse
  | rejectedTimeout
  | rejectedTransport
deriving Repr, DecidableEq

/-- State of the agent's hub connection and pending-request table
(`agent.js`): `pending` holds the correlation ids with live waiters,
`settledLog` records how each waiter's promise was settled (a promise
settles at most once), `sentLog` the requests written to the socket. -/
structure HubClientState : Type where
  connected : Bool
  pending : List String
  settledLog : List (String × HubOutcome)
  sentLog : List String
deriving Repr, DecidableEq

/-- Hub-client state right after the websocket opened. -/
def initialHubClient : HubClientState :=
  { connected := true, pending := [], settledLog := [], sentLog := [] }

/-- Settle a promise: the first settlement wins, later ones are no-ops. -/
def settleWaiter (log : List (String × HubOutcome)) (cid : String)
    (o : HubOutcome) : List (String × HubOutcome) :=
  if (log.map Prod.fst).contains cid then log else (cid, o) :: log

/-- Events hitting the agent's hub connection: `_hubRequest` issuing a
request, an inbound hub message (with its parsed correlationId, none when
absent or unparseable), a request timer firing, and the socket closing. -/
inductive HubEvent : Type where
  | sendRequest (cid : String)
  | hubMessage (cid : Option String)
  | timerFire (cid : String)
  | socketClose
deriving Repr, DecidableEq

/-- Embeds the agent's hub-channel event handling: `_hubRequest`
(`agent.js` 264-278), `_handleHubMessage` (280-294), the request timeout
callback (269-272) and the ws close handler (219-226).  The close handler
only clears `connected` and emits `disconnected`; it does not touch the
pending-request table. -/
def hubStep (st : HubClientState) (e : HubEvent) : HubClientState :=
  match e with
  | .sendRequest cid =>
    { st with
      pending := if st.pending.contains cid then st.pending else cid :: st.pending,
      sentLog := st.sentLog ++ [cid] }
  | .hubMessage none => st
  | .hubMessage (some cid) =>
    if st.pending.contains cid then
      { st with pending := st.pending.erase cid,
                settledLog := settleWaiter st.settledLog cid .resolvedResponse }
    else st
  | .timerFire cid =>
    { st with pending := st.pending.erase cid,
              settledLog := settleWaiter st.settledLog cid .rejectedTimeout }
  | .socketClose => { st with connected := false }

/-- Run a sequence of hub-channel events. -/
def hubRun (st : HubClientState) (es : List HubEvent) : HubClientState :=
  es.foldl hubStep st

/-- One entry of the agent's address cache (`agentCache`). -/
structure CacheEntry : Type where
  address : String
  lastSeen : Nat
deriving Repr, DecidableEq

/-- The agent row inside a `lookup` response. -/
structure LookupAgent : Type where
  status : String
  address : String
deriving Repr, DecidableEq

/-- Wire response of a `lookup` request as `_resolveAgent` reads it. -/
structure LookupResponse : Type where
  status : String
  agent : Option LookupAgent
deriving Repr, DecidableEq

/-- Outcome of `_resolveAgent`: address served from cache without any hub
round-trip, address resolved via the hub (with the refreshed cache), or one
of the two thrown errors. -/
inductive ResolveOutcome : Type where
  | fromCache (address : String)
  | resolved (address : String) (newCache : List (String × CacheEntry))
  | errNotFound
  | errOffline
deriving Repr, DecidableEq

/-- The hub-lookup branch of `_resolveAgent` (`agent.js` 448-468): not-ok
or missing agent throws not-found, `offline` throws offline, anything else
refreshes the cache (`Map.set`, modelled as a first-match-wins cons) and
returns the address. -/
def resolveLookup (cache : List (String × CacheEntry)) (now : Nat)
    (agentId : String) (resp : LookupResponse) : ResolveOutcome :=
  if resp.status ≠ "ok" ∨ resp.agent = none then .errNotFound
  else
    match resp.agent with
    | none => .errNotFound
    | some ag =>
      if ag.status = "offline" then .errOffline
      else .resolved ag.address ((agentId, { address := ag.address, lastSeen := now }) :: cache)

/-- Embeds `M2MAgent._resolveAgent` (`agent.js` 441-469).  The hub response
is passed as a parameter; the cache-hit branch never reads it. -/
def resolveAgent (cache : List (String × CacheEntry)) (now : Nat)
    (agentId : String) (resp : LookupResponse) : ResolveOutcome :=
  match cache.lookup agentId with
  | some e =>
    if now - e.lastSeen < 60000 then .fromCache e.address
    else resolveLookup cache now agentId resp
  | none => resolveLookup cache now agentId resp

/-- Inbound lines on a responder peer session, partitioned by the branch of
`_handlePeerConnection` that handles them: a handshake (carrying the
initiator's ephemeral public key, reduced to its seed, and its agent id), a
message frame, a ping, any other well-formed JSON, or a line `JSON.parse`
rejects. -/
inductive PeerLine : Type where
  | handshake (key : Nat) (fromId : String)
  | message (data : Crypto.GcmToken) (messageType : String) (correlationId : String)
  | ping
  | otherFrame
  | malformed
deriving Repr, DecidableEq

/-- Lines the responder writes back. -/
inductive OutLine : Type where
  | handshakeAck (key : Nat)
  | ack (correlationId : String)
  | pong
  | errLine (error : String)
deriving Repr, DecidableEq

/-- An Incoming message dispatched to `message` listeners. -/
structure IncomingMsg : Type where
  fromId : Option String
  msgType : String
  payload : JVal
  correlationId : String
  timestamp : Nat
deriving Repr

/-- State of one responder peer session (`_handlePeerConnection`,
`agent.js` 300-362): the session key and peer id once the handshake
happened, whether `socket.end()` was called, the Incoming messages
dispatched upward, and the lines written back. -/
structure PeerSession : Type where
  sessionKey : Option (List Nat)
  peerId : Option String
  closed : Bool
  emitted : List IncomingMsg
  written : List OutLine
deriving Repr

/-- Fresh responder session right after TCP accept. -/
def initSession : PeerSession :=
  { sessionKey := none, peerId := none, closed := false, emitted := [], written := [] }

/-- Embeds the per-line dispatch of `_handlePeerConnection` (`agent.js`
315-357).  `mySeed` is the responder's ephemeral key seed, `now` the
dispatch timestamp.  A `message` before the handshake matches no branch:
the state is returned unchanged (nothing written, nothing emitted, no
close). -/
def peerStep (mySeed : Nat) (now : Nat) (st : PeerSession) (line : PeerLine) :
    PeerSession :=
  match line with
  | .handshake key fromId =>
    { st with sessionKey := some (Crypto.dhShared mySeed key),
              peerId := some fromId,
              written := st.written ++ [.handshakeAck mySeed] }
  | .message data mt cid =>
    match st.sessionKey with
    | some sk =>
      match Crypto.decrypt data sk with
      | some payload =>
        { st with
          emitted := st.emitted ++
            [{ fromId := st.peerId, msgType := mt, payload := payload,
               correlationId := cid, timestamp := now }],
          written := st.written ++ [.ack cid] }
      | none => { st with written := st.written ++ [.errLine "decryption_failed"] }
    | none => st
  | .ping => { st with written := st.written ++ [.pong] }
  | .otherFrame => st
  | .malformed => { st with written := st.written ++ [.errLine "invalid_message"] }

/-- A responder session event: a decoded line arriving, or the 30-second
idle timeout firing (`socket.setTimeout(30000)`; the timeout handler calls
`socket.end()`, `agent.js` 305 and 360). -/
inductive PeerEvent : Type where
  | lineEvt (line : PeerLine)
  | timeoutEvt

/-- Event step of a responder session. -/
def peerEventStep (mySeed : Nat) (now : Nat) (st : PeerSession) (e : PeerEvent) :
    PeerSession :=
  match e with
  | .lineEvt line => peerStep mySeed now st line
  | .timeoutEvt => { st with closed := true }

/-- Inbound lines on the initiator side of a send (`_sendEncrypted`),
partitioned by the branch that handles them: handshake_ack, ack, a frame
with a truthy `error` field, any other well-formed JSON, or a line
`JSON.parse` rejects. -/
inductive InitLine : Type where
  | handshakeAck (key : Nat)
  | ackLine (correlationId : String)
  | errLine (error : String)
  | otherFrame
  | malformed
deriving Repr, DecidableEq

/-- How the promise of one `_sendEncrypted` call settled. -/
inductive SendOutcome : Type where
  | deliveredOk (correlationId : String)
  | rejected (error : String)
deriving Repr, DecidableEq

/-- State of one initiator send (`_sendEncrypted`, `agent.js` 368-435):
derived session key, how the promise settled (a promise settles at most
once), whether `socket.end()`/`destroy()` was called, and the lines written
(which are the responder's inbound lines). -/
structure SendState : Type where
  sessionKey : Option (List Nat)
  settled : Option SendOutcome
  closed : Bool
  written : List PeerLine
deriving Repr, DecidableEq

/-- Initiator state right after connect: the handshake line has been
written (`agent.js` 379-385). -/
def initSendState (mySeed : Nat) (myId : String) : SendState :=
  { sessionKey := none, settled := none, closed := false,
    written := [.handshake mySeed myId] }

/-- Settle a promise: the first settlement wins. -/
def settleSend (st : Option SendOutcome) (o : SendOutcome) : Option SendOutcome :=
  match st with
  | some x => some x
  | none => some o

/-- Embeds the initiator's per-line dispatch (`agent.js` 388-424):
handshake_ack derives the key and writes the encrypted message; ack ends
the socket and resolves delivered; a truthy `error` field ends the socket
and rejects with that error; an unparseable line ends the socket and
rejects with the parse error. -/
def sendStep (mySeed : Nat) (nonce : List Nat) (payload : JVal)
    (messageType correlationId : String) (st : SendState) (line : InitLine) :
    SendState :=
  match line with
  | .handshakeAck key =>
    let sk := Crypto.dhShared mySeed key
    { st with sessionKey := some sk,
              written := st.written ++
                [.message (Crypto.encrypt payload sk nonce) messageType correlationId] }
  | .ackLine _ =>
    { st with closed := true,
              settled := settleSend st.settled (.deliveredOk correlationId) }
  | .errLine e =>
    if e = "" then st
    else { st with closed := true, settled := settleSend st.settled (.rejected e) }
  | .otherFrame => st
  | .malformed =>
    { st with closed := true, settled := settleSend st.settled (.rejected "parse_error") }

/-- Run a sequence of inbound lines through one initiator send. -/
def sendRun (mySeed : Nat) (nonce : List Nat) (payload : JVal)
    (messageType correlationId : String) (st : SendState) (ls : List InitLine) :
    SendState :=
  ls.foldl (sendStep mySeed nonce payload messageType correlationId) st

/-- A 32-byte AES-256 key: 32 byte values. -/
def Key32 (k : List Nat) : Prop :=
  k.length = 32 ∧ ∀ b ∈ k, b < 256

/-- The payloads on which the JSON leg of `decrypt ∘ encrypt` is lossless:
non-string values whose serialization parses back to themselves (all JSON
values, under a correct external codec), and strings that are not
themselves valid JSON.  A string payload that is valid JSON is re-parsed by
`decrypt` into a different value. -/
def TextRoundTrips : JVal → Prop
  | .jstr s => parseJson s = none
  | v => parseJson (stringify v) = some v

/-- The cache holds no fresh entry for this id (expired or missing), so
`_resolveAgent` must consult the hub. -/
def CacheStale (cache : List (String × CacheEntry)) (agentId : String)
    (now : Nat) : Prop :=
  ∀ e, cache.lookup agentId = some e → ¬(now - e.lastSeen < 60000)

end M2M

namespace M2M

/-- Membership after sorted insertion comes from the inserted element or
the original list. -/
theorem mem_insertBy (le : α → α → Bool) (a x : α) :
    ∀ l : List α, x ∈ insertBy le a l → x = a ∨ x ∈ l := by
  intro l
  induction l with
  | nil =>
    intro h
    simp only [insertBy, List.mem_singleton] at h
    exact Or.inl h
  | cons b bs ih =>
    intro h
    simp only [insertBy] at h
    by_cases hle : le a b
    · rw [if_pos hle] at h
      rcases List.mem_cons.mp h with h1 | h1
      · exact Or.inl h1
      · exact Or.inr h1
    · rw [if_neg hle] at h
      rcases List.mem_cons.mp h with h1 | h1
      · exact Or.inr (List.mem_cons.mpr (Or.inl h1))
      · rcases ih h1 with h2 | h2
        · exact Or.inl h2
        · exact Or.inr (List.mem_cons.mpr (Or.inr h2))

/-- Sorting does not create members. -/
theorem mem_sortBy (le : α → α → Bool) (x : α) :
    ∀ l : List α, x ∈ sortBy le l → x ∈ l := by
  intro l
  induction l with
  | nil =>
    intro h
    simp [sortBy] at h
  | cons b bs ih =>
    intro h
    simp only [sortBy] at h
    rcases mem_insertBy _ b x _ h with h1 | h1
    · exact List.mem_cons.mpr (Or.inl h1)
    · exact List.mem_cons.mpr (Or.inr (ih h1))

/-- An already-settled send promise is never re-settled by a later line
(promises settle at most once). -/
theorem sendStep_settled_mono (mySeed : Nat) (nonce : List Nat) (payload : JVal)
    (mt cid : String) (st : SendState) (line : InitLine) (o : SendOutcome)
    (h : st.settled = some o) :
    (sendStep mySeed nonce payload mt cid st line).settled = some o := by
  cases line with
  | handshakeAck k => simpa [sendStep] using h
  | ackLine c => simp [sendStep, settleSend, h]
  | errLine e =>
    by_cases he : e = "" <;> simp [sendStep, settleSend, he, h]
  | otherFrame => simpa [sendStep] using h
  | malformed => simp [sendStep, settleSend, h]

/-- An already-settled send promise stays settled the same way over any
sequence of further inbound lines. -/
theorem sendRun_settled_mono (mySeed : Nat) (nonce : List Nat) (payload : JVal)
    (mt cid : String) (o : SendOutcome) :
    ∀ (ls : List InitLine) (st : SendState), st.settled = some o →
      (sendRun mySeed nonce payload mt cid st ls).settled = some o := by
  intro ls
  induction ls with
  | nil =>
    intro st h
    simpa [sendRun] using h
  | cons l ls ih =>
    intro st h
    simp only [sendRun, List.foldl_cons]
    exact ih (sendStep mySeed nonce payload mt cid st l)
      (sendStep_settled_mono mySeed nonce payload mt cid st l o h)

/-- A conditional row update whose WHERE clause matches no row is the
identity on the table. -/
theorem map_update_no_match (id : String) (f : AgentRec → AgentRec) :
    ∀ regs : List AgentRec, (∀ r ∈ regs, r.id ≠ id) →
      (regs.map fun r => if r.id = id then f r else r) = regs := by
  intro regs
  induction regs with
  | nil => intro _; rfl
  | cons a as ih =>
    intro h
    simp only [List.map_cons]
    rw [if_neg (h a (List.mem_cons_self a as)),
        ih fun r hr => h r (List.mem_cons_of_mem a hr)]

/-- Claim C1, counterexample: the round-trip is not the identity on every
payload.  For the string payload "7", `decrypt (encrypt m k) k` re-parses
the decrypted text as JSON and yields the number 7, which is not
structurally equal to the sent string value. -/
theorem crypto_string_payload_counterexample :
    Crypto.decrypt
        (Crypto.encrypt (JVal.jstr "7") (List.replicate 32 0) (List.replicate 12 0))
        (List.replicate 32 0)
      = some (JVal.jnum 7)
    ∧ JVal.jnum 7 ≠ JVal.jstr "7" :=
  ⟨rfl, fun h => nomatch h⟩

/-- Claim C1 (amended): for every 32-byte key and every payload whose JSON
leg is lossless (any non-string value whose serialization parses back to
itself, or any string payload that is not itself valid JSON),
`decrypt (encrypt m k) k` returns exactly m; and for any two distinct
32-byte keys, `decrypt (encrypt m k2) k1` returns null.  String payloads
that are valid JSON are excluded: they decrypt to the re-parsed value
(see the counterexample). -/
theorem crypto_roundtrip_amended (key nonce : List Nat) (m : JVal)
    (hkey : Key32 key) (hm : TextRoundTrips m) :
    Crypto.decrypt (Crypto.encrypt m key nonce) key = some m
    ∧ ∀ k1 : List Nat, Key32 k1 → k1 ≠ key →
        Crypto.decrypt (Crypto.encrypt m key nonce) k1 = none := by
  constructor
  · cases m with
    | jnull =>
      simp only [TextRoundTrips] at hm
      simp [Crypto.decrypt, Crypto.encrypt, Crypto.toText, hm]
    | jbool b =>
      simp only [TextRoundTrips] at hm
      simp [Crypto.decrypt, Crypto.encrypt, Crypto.toText, hm]
    | jnum n =>
      simp only [TextRoundTrips] at hm
      simp [Crypto.decrypt, Crypto.encrypt, Crypto.toText, hm]
    | jstr s =>
      simp only [TextRoundTrips] at hm
      simp [Crypto.decrypt, Crypto.encrypt, Crypto.toText, hm]
    | jarr vs =>
      simp only [TextRoundTrips] at hm
      simp [Crypto.decrypt, Crypto.encrypt, Crypto.toText, hm]
    | jobj ms =>
      simp only [TextRoundTrips] at hm
      simp [Crypto.decrypt, Crypto.encrypt, Crypto.toText, hm]
  · intro k1 _ hne
    unfold Crypto.encrypt Crypto.decrypt
    exact if_neg fun h => hne h.symm

/-- Claim C1, witness of the amended theorem at a 32-byte key, a distinct
32-byte key and a concrete object payload. -/
theorem crypto_roundtrip_witness :
    Crypto.decrypt
        (Crypto.encrypt (JVal.jobj [("n", JVal.jnum 7)]) (List.replicate 32 0)
          (List.replicate 12 1))
        (List.replicate 32 0)
      = some (JVal.jobj [("n", JVal.jnum 7)])
    ∧ Crypto.decrypt
        (Crypto.encrypt (JVal.jobj [("n", JVal.jnum 7)]) (List.replicate 32 0)
          (List.replicate 12 1))
        (List.replicate 32 1)
      = none := by
  have h := crypto_roundtrip_amended (List.replicate 32 0) (List.replicate 12 1)
    (JVal.jobj [("n", JVal.jnum 7)]) ⟨by decide, by decide⟩ rfl
  exact ⟨h.1, h.2 (List.replicate 32 1) ⟨by decide, by decide⟩ (by decide)⟩

/-- Claim C2, counterexample: when the agent supplies no address, or an
address without a port component, the stored address is the observed
remote IP alone, which contains no port at all, not the "full observed
endpoint (host and port)" of the claim. -/
theorem register_address_fallback_counterexample :
    deriveAddress (some "10.0.0.7") "203.0.113.5" = "203.0.113.5"
    ∧ deriveAddress none "203.0.113.5" = "203.0.113.5"
    ∧ (jsSplit "203.0.113.5" ':').length = 1 :=
  ⟨rfl, rfl, rfl⟩

/-- Claim C2 (amended): the stored address is the observed remote IP
joined with the port component of the agent-supplied address; when the
agent supplies no address or an address without a (non-empty) port
component, the stored address is the observed remote IP alone (without
any port).  The register handler appends exactly one record carrying that
address, with status online. -/
theorem register_address_amended (address : Option String) (remoteIP : String)
    (regs : List AgentRec) (caps : List String) (nid : String) (now : Nat) :
    deriveAddress address remoteIP =
      (match portComponent address with
       | some p => remoteIP ++ ":" ++ p
       | none => remoteIP)
    ∧ ∃ rec, (handleRegister regs address caps remoteIP nid now).1 = regs ++ [rec]
        ∧ rec.address = deriveAddress address remoteIP
        ∧ rec.status = "online" := by
  constructor
  · cases address with
    | none => rfl
    | some a =>
      by_cases ha : a = ""
      · simp [deriveAddress, portComponent, ha]
      · cases hg : (jsSplit a ':')[1]? with
        | none => simp [deriveAddress, portComponent, ha, hg]
        | some p =>
          by_cases hp : p = "" <;> simp [deriveAddress, portComponent, ha, hg, hp]
  · exact ⟨_, rfl, rfl, rfl⟩

/-- Claim C3, counterexample: with one request in flight, closing the hub
socket leaves the waiter in the pending table and settles nothing — it is
neither failed with a transport error at the moment of close nor removed
from the table. -/
theorem hub_close_pending_counterexample :
    (hubRun initialHubClient [.sendRequest "ab12cd34", .socketClose]).connected = false
    ∧ (hubRun initialHubClient [.sendRequest "ab12cd34", .socketClose]).pending
        = ["ab12cd34"]
    ∧ (hubRun initialHubClient [.sendRequest "ab12cd34", .socketClose]).settledLog = [] :=
  ⟨rfl, rfl, rfl⟩

/-- Claim C3 (amended): when the hub socket closes, in-flight waiters are
not failed and not removed: the close handler leaves the pending table,
the settlement log and the sent log untouched and only clears the
connected flag.  Each waiter is instead left to its own timer, which
rejects it with a timeout error and removes its entry; nothing is ever
retried (the sent log grows only on an explicit request). -/
theorem hub_close_pending_amended (st : HubClientState) (cid : String) :
    (hubStep st .socketClose).pending = st.pending
    ∧ (hubStep st .socketClose).settledLog = st.settledLog
    ∧ (hubStep st .socketClose).sentLog = st.sentLog
    ∧ (hubStep st .socketClose).connected = false
    ∧ (hubStep st (.timerFire cid)).pending = st.pending.erase cid
    ∧ (hubStep st (.timerFire cid)).settledLog
        = settleWaiter st.settledLog cid .rejectedTimeout
    ∧ (hubStep st (.timerFire cid)).sentLog = st.sentLog :=
  ⟨rfl, rfl, rfl, rfl, rfl, rfl, rfl⟩

/-- Claim C4, counterexample: the status-update operation stores the
agent-supplied string verbatim; sending status "busy" (which the SDK's own
documentation advertises) puts a record into a status outside
online/idle/offline. -/
theorem status_busy_counterexample :
    (handleStatus
        [{ id := "a1", address := "1.2.3.4:4000", capabilities := ["chat"],
           status := "online", lastSeen := 1000 }] "a1" (some "busy") 2000).map
        (fun r => r.status) = ["busy"]
    ∧ ¬("busy" = "online" ∨ "busy" = "idle" ∨ "busy" = "offline") :=
  ⟨rfl, by decide⟩

/-- Claim C4 (amended): register, heartbeat, disconnect/socket close and
the sweeper respect the stated lifecycle — heartbeat sends any record to
online, register inserts online records, disconnect sends any record to
offline, and a sweeper pass either leaves a record alone, demotes an
online record to idle (or through idle to offline), or demotes an idle
record to offline.  The status-update operation, however, stores any
truthy agent-supplied string verbatim (no whitelist), so statuses outside
online/idle/offline can occur. -/
theorem registry_lifecycle_amended (regs : List AgentRec) (id : String) (now : Nat)
    (s : String) (address : Option String) (caps : List String)
    (remoteIP nid : String) :
    (∀ r' ∈ (handleHeartbeat regs id now).1, r'.status = "online" ∨ r' ∈ regs)
    ∧ (∀ r' ∈ (handleRegister regs address caps remoteIP nid now).1,
         r'.status = "online" ∨ r' ∈ regs)
    ∧ (∀ r' ∈ handleDisconnect regs id, r'.status = "offline" ∨ r' ∈ regs)
    ∧ (∀ r' ∈ cleanup regs now,
         r' ∈ regs
         ∨ (∃ r ∈ regs, r.status = "online" ∧ (r'.status = "idle" ∨ r'.status = "offline"))
         ∨ (∃ r ∈ regs, r.status = "idle" ∧ r'.status = "offline"))
    ∧ (s ≠ "" → ∀ r' ∈ handleStatus regs id (some s) now, r'.status = s ∨ r' ∈ regs) := by
  refine ⟨?_, ?_, ?_, ?_, ?_⟩
  · intro r' hr'
    simp only [handleHeartbeat, List.mem_map] at hr'
    obtain ⟨r, hr, rfl⟩ := hr'
    by_cases hid : r.id = id
    · simp [hid]
    · simp [hid, hr]
  · intro r' hr'
    simp only [handleRegister, List.mem_append, List.mem_singleton] at hr'
    rcases hr' with hr' | hr'
    · exact Or.inr hr'
    · subst hr'
      exact Or.inl rfl
  · intro r' hr'
    simp only [handleDisconnect, List.mem_map] at hr'
    obtain ⟨r, hr, rfl⟩ := hr'
    by_cases hid : r.id = id
    · simp [hid]
    · simp [hid, hr]
  · intro r' hr'
    simp only [cleanup, List.map_map, List.mem_map, Function.comp] at hr'
    obtain ⟨r, hr, rfl⟩ := hr'
    by_cases h1 : r.status = "online" ∧ r.lastSeen + 120000 < now
    · rw [if_pos h1]
      by_cases h2 : r.lastSeen + 300000 < now
      · rw [if_pos ⟨rfl, h2⟩]
        exact Or.inr (Or.inl ⟨r, hr, h1.1, Or.inr rfl⟩)
      · rw [if_neg fun hc => h2 hc.2]
        exact Or.inr (Or.inl ⟨r, hr, h1.1, Or.inl rfl⟩)
    · rw [if_neg h1]
      by_cases h2 : r.status = "idle" ∧ r.lastSeen + 300000 < now
      · rw [if_pos h2]
        exact Or.inr (Or.inr ⟨r, hr, h2.1, rfl⟩)
      · rw [if_neg h2]
        exact Or.inl hr
  · intro hs r' hr'
    simp only [handleStatus, List.mem_map] at hr'
    obtain ⟨r, hr, rfl⟩ := hr'
    by_cases hid : r.id = id
    · simp [hid, hs]
    · simp [hid, hr]

/-- Claim C4, witness of the amended theorem: a concrete status update
storing "busy" verbatim, via the last conjunct. -/
theorem registry_lifecycle_witness :
    ({ id := "a1", address := "x", capabilities := [], status := "busy",
       lastSeen := 9 } : AgentRec).status = "busy"
    ∨ ({ id := "a1", address := "x", capabilities := [], status := "busy",
         lastSeen := 9 } : AgentRec) ∈
        [({ id := "a1", address := "x", capabilities := [], status := "online",
            lastSeen := 0 } : AgentRec)] :=
  (registry_lifecycle_amended
      [{ id := "a1", address := "x", capabilities := [], status := "online",
         lastSeen := 0 }] "a1" 9 "busy" none [] "ip" "n2").2.2.2.2 (by decide)
    { id := "a1", address := "x", capabilities := [], status := "busy", lastSeen := 9 }
    (by decide)

/-- Claim C5, counterexample: a message frame arriving on a fresh inbound
session (before any handshake established a key) leaves the session state
completely unchanged — nothing is dispatched, but the connection is NOT
closed, contrary to the claim. -/
theorem prekey_message_counterexample :
    peerStep 0 0 initSession
        (.message { nonce := [], sealKey := [], text := "x" } "task" "c1")
      = initSession
    ∧ (peerStep 0 0 initSession
        (.message { nonce := [], sealKey := [], text := "x" } "task" "c1")).closed
      = false
    ∧ (peerStep 0 0 initSession
        (.message { nonce := [], sealKey := [], text := "x" } "task" "c1")).emitted
      = [] :=
  ⟨rfl, rfl, rfl⟩

/-- Claim C5 (amended): a message frame received before the handshake has
established a session key is dropped without dispatching any Incoming
message and without any reply, but the session is NOT closed at that
moment — the state is unchanged, and the connection is closed only when
the 30-second idle timeout fires. -/
theorem prekey_message_amended (mySeed now : Nat) (st : PeerSession)
    (data : Crypto.GcmToken) (mt cid : String) (h : st.sessionKey = none) :
    peerStep mySeed now st (.message data mt cid) = st
    ∧ (peerEventStep mySeed now st .timeoutEvt).closed = true := by
  constructor
  · simp [peerStep, h]
  · rfl

/-- Claim C5, witness of the amended theorem at a fresh session. -/
theorem prekey_message_witness :
    peerStep 1 2 initSession
        (.message { nonce := [0], sealKey := [1], text := "y" } "t2" "c2")
      = initSession
    ∧ (peerEventStep 1 2 initSession .timeoutEvt).closed = true :=
  prekey_message_amended 1 2 initSession
    { nonce := [0], sealKey := [1], text := "y" } "t2" "c2" rfl

/-- Claim C6, counterexample: a find request with no limit gets limit 10,
not the claimed default of 100. -/
theorem find_default_limit_counterexample :
    findLimit none = 10 ∧ findLimit none ≠ defaultLimit :=
  ⟨rfl, by decide⟩

/-- Claim C6 (amended): discover defaults its limit to 100 and find
defaults to 10; both cap any supplied limit at 500 (a supplied non-zero
limit of at most 500 is used as is), and the returned agent lists never
exceed the applied limit. -/
theorem pagination_limits_amended (l : Nat) (regs : List AgentRec)
    (sid : Option String) (caps : Option (List String)) (stf : Option String)
    (lim off : Option Nat) (c : String) :
    discoverLimit none = 100
    ∧ findLimit none = 10
    ∧ discoverLimit (some l) ≤ 500
    ∧ findLimit (some l) ≤ 500
    ∧ (l ≠ 0 → l ≤ 500 → discoverLimit (some l) = l ∧ findLimit (some l) = l)
    ∧ (handleDiscover regs sid caps stf lim off).agents.length ≤ discoverLimit lim
    ∧ (handleFind regs c lim off).agents.length ≤ findLimit lim := by
  refine ⟨rfl, rfl, ?_, ?_, ?_, ?_, ?_⟩
  · exact min_le_right _ _
  · exact min_le_right _ _
  · intro h0 h5
    constructor
    · simp only [discoverLimit, jsOrNat]
      rw [if_neg h0]
      exact min_eq_left h5
    · simp only [findLimit, jsOrNat]
      rw [if_neg h0]
      exact min_eq_left h5
  · simp only [handleDiscover]
    exact List.length_take_le _ _
  · simp only [handleFind]
    exact List.length_take_le _ _

/-- Claim C6, witness of the amended theorem at a concrete in-range
limit. -/
theorem pagination_limits_witness :
    discoverLimit (some 7) = 7 ∧ findLimit (some 7) = 7 :=
  (pagination_limits_amended 7 [] none none none none none "c").2.2.2.2.1
    (by decide) (by decide)

/-- Claim C7: for every registry state and every discover request (any
combination of self-exclusion, capability, status, limit and offset
filters), no record with status offline appears in the returned agents
list — the WHERE clause always carries status distinct from offline. -/
theorem discover_excludes_offline (regs : List AgentRec) (sid : Option String)
    (caps : Option (List String)) (stf : Option String) (lim off : Option Nat)
    (r : AgentRec) (h : r ∈ (handleDiscover regs sid caps stf lim off).agents) :
    r.status ≠ "offline" := by
  simp only [handleDiscover] at h
  have h1 := List.mem_of_mem_take h
  have h2 := List.mem_of_mem_drop h1
  have h3 := mem_sortBy _ r _ h2
  have h4 := (List.mem_filter.mp h3).2
  simp only [discoverPred, Bool.and_eq_true] at h4
  exact bne_iff_ne.mp h4.1.1.1

/-- Claim C7, witness at a one-record online registry and an unfiltered
discover. -/
theorem discover_excludes_offline_witness :
    ({ id := "b", address := "1.2.3.4:1", capabilities := [], status := "online",
       lastSeen := 0 } : AgentRec).status ≠ "offline" :=
  discover_excludes_offline
    [{ id := "b", address := "1.2.3.4:1", capabilities := [], status := "online",
       lastSeen := 0 }] none none none none none _ (by decide)

/-- Claim C8: the resolver returns the cached address without consulting
the hub whenever a cache entry younger than 60 s exists (the outcome is
the same for every possible hub response); otherwise it performs the
lookup and fails not-found when the hub does not know the id (non-ok
status or missing agent), fails offline when the hub reports status
offline, and for any other reported status (including idle) refreshes the
cache with the hub-reported address and returns it. -/
theorem resolve_agent_contract (cache : List (String × CacheEntry)) (now : Nat)
    (agentId : String) (resp : LookupResponse) :
    (∀ e, cache.lookup agentId = some e → now - e.lastSeen < 60000 →
       ∀ resp2 : LookupResponse,
         resolveAgent cache now agentId resp2 = .fromCache e.address)
    ∧ (CacheStale cache agentId now → (resp.status ≠ "ok" ∨ resp.agent = none) →
       resolveAgent cache now agentId resp = .errNotFound)
    ∧ (∀ ag, CacheStale cache agentId now → resp.status = "ok" →
       resp.agent = some ag → ag.status = "offline" →
       resolveAgent cache now agentId resp = .errOffline)
    ∧ (∀ ag, CacheStale cache agentId now → resp.status = "ok" →
       resp.agent = some ag → ag.status ≠ "offline" →
       resolveAgent cache now agentId resp =
         .resolved ag.address
           ((agentId, { address := ag.address, lastSeen := now }) :: cache)) := by
  have stale_path : ∀ resp1 : LookupResponse, CacheStale cache agentId now →
      resolveAgent cache now agentId resp1 = resolveLookup cache now agentId resp1 := by
    intro resp1 hstale
    cases hc : cache.lookup agentId with
    | none => simp [resolveAgent, hc]
    | some e => simp [resolveAgent, hc, hstale e hc]
  refine ⟨?_, ?_, ?_, ?_⟩
  · intro e he hf resp2
    simp [resolveAgent, he, hf]
  · intro hstale hbad
    rw [stale_path resp hstale]
    unfold resolveLookup
    rw [if_pos hbad]
  · intro ag hstale hok hag hoff
    rw [stale_path resp hstale]
    unfold resolveLookup
    rw [if_neg fun hcon => hcon.elim (fun h1 => h1 hok)
        (fun h2 => by rw [hag] at h2; exact Option.noConfusion h2)]
    rw [hag]
    simp only []
    rw [if_pos hoff]
  · intro ag hstale hok hag hoff
    rw [stale_path resp hstale]
    unfold resolveLookup
    rw [if_neg fun hcon => hcon.elim (fun h1 => h1 hok)
        (fun h2 => by rw [hag] at h2; exact Option.noConfusion h2)]
    rw [hag]
    simp only []
    rw [if_neg hoff]

/-- Claim C8, witness: a fresh cache entry is served from the cache even
against a hub response that would fail, and a stale (empty) cache with a
hub response of status idle refreshes the cache and returns the
address. -/
theorem resolve_agent_witness :
    resolveAgent [("b", { address := "5.6.7.8:9", lastSeen := 1000 })] 2000 "b"
        { status := "error", agent := none }
      = .fromCache "5.6.7.8:9"
    ∧ resolveAgent [] 5 "b"
        { status := "ok", agent := some { status := "idle", address := "5.6.7.8:9" } }
      = .resolved "5.6.7.8:9" [("b", { address := "5.6.7.8:9", lastSeen := 5 })] :=
  ⟨(resolve_agent_contract [("b", { address := "5.6.7.8:9", lastSeen := 1000 })]
      2000 "b" { status := "error", agent := none }).1
      { address := "5.6.7.8:9", lastSeen := 1000 } rfl (by decide)
      { status := "error", agent := none },
   (resolve_agent_contract [] 5 "b"
      { status := "ok", agent := some { status := "idle", address := "5.6.7.8:9" } }).2.2.2
      { status := "idle", address := "5.6.7.8:9" } (fun e he => nomatch he) rfl rfl
      (by decide)⟩

/-- Claim C9: when decryption of a message frame fails, the responder
writes the decryption_failed error frame, dispatches nothing, does not
close, and the session stays usable — a subsequent well-encrypted message
on the same session is dispatched; the initiator, on any frame with a
truthy error field while its send is unsettled, rejects the send with
that error, and the rejection is final over any sequence of later
frames (it is never resolved as delivered). -/
theorem decryption_failure_contract
    (mySeed now now2 : Nat) (st : PeerSession) (sk : List Nat)
    (data goodData : Crypto.GcmToken) (mt cid gmt gcid : String)
    (hkey : st.sessionKey = some sk) (hfail : Crypto.decrypt data sk = none)
    (v : JVal) (hok : Crypto.decrypt goodData sk = some v)
    (iSeed : Nat) (nonce : List Nat) (payload : JVal) (imt icid : String)
    (ist : SendState) (e : String) (he : e ≠ "") (hun : ist.settled = none)
    (ls : List InitLine) :
    (peerStep mySeed now st (.message data mt cid)).written
        = st.written ++ [.errLine "decryption_failed"]
    ∧ (peerStep mySeed now st (.message data mt cid)).emitted = st.emitted
    ∧ (peerStep mySeed now st (.message data mt cid)).closed = st.closed
    ∧ (peerStep mySeed now2 (peerStep mySeed now st (.message data mt cid))
          (.message goodData gmt gcid)).emitted
        = st.emitted ++
          [{ fromId := st.peerId, msgType := gmt, payload := v,
             correlationId := gcid, timestamp := now2 }]
    ∧ (sendStep iSeed nonce payload imt icid ist (.errLine e)).settled
        = some (.rejected e)
    ∧ (sendRun iSeed nonce payload imt icid
          (sendStep iSeed nonce payload imt icid ist (.errLine e)) ls).settled
        = some (.rejected e) := by
  have hstep : peerStep mySeed now st (.message data mt cid)
      = { st with written := st.written ++ [.errLine "decryption_failed"] } := by
    simp [peerStep, hkey, hfail]
  have herr : (sendStep iSeed nonce payload imt icid ist (.errLine e)).settled
      = some (.rejected e) := by
    simp [sendStep, settleSend, he, hun]
  refine ⟨by rw [hstep], by rw [hstep], by rw [hstep], ?_, herr, ?_⟩
  · rw [hstep]
    simp [peerStep, hkey, hok]
  · exact sendRun_settled_mono iSeed nonce payload imt icid (.rejected e) ls _ herr

/-- Claim C9, witness: after a concrete handshake, a token sealed under a
foreign key triggers the error frame, and a concrete initiator send
rejected by an error frame stays rejected over further lines including an
ack. -/
theorem decryption_failure_witness :
    (peerStep 3 0 (peerStep 3 0 initSession (.handshake 5 "peer"))
        (.message { nonce := [], sealKey := [9], text := "x" } "t" "c1")).written
      = (peerStep 3 0 initSession (.handshake 5 "peer")).written
          ++ [.errLine "decryption_failed"]
    ∧ (sendRun 7 [0] JVal.jnull "t" "c9"
         (sendStep 7 [0] JVal.jnull "t" "c9" (initSendState 7 "me") (.errLine "boom"))
         [.ackLine "zz", .otherFrame]).settled = some (.rejected "boom") :=
  have h := decryption_failure_contract 3 0 1
    (peerStep 3 0 initSession (.handshake 5 "peer")) [3, 5]
    { nonce := [], sealKey := [9], text := "x" }
    { nonce := [], sealKey := [3, 5], text := "true" } "t" "c1" "g" "gc"
    rfl rfl (JVal.jbool true) rfl
    7 [0] JVal.jnull "t" "c9" (initSendState 7 "me") "boom" (by decide) rfl
    [.ackLine "zz", .otherFrame]
  ⟨h.1, h.2.2.2.2.2⟩

/-- Claim C10: a heartbeat for an id absent from the registry returns the
same ok-with-timestamp response as for a known id (the response does not
depend on the registry or the id at all), leaves every record unchanged
and inserts no new record. -/
theorem heartbeat_unknown_id (regs : List AgentRec) (id : String) (now : Nat)
    (h : ∀ r ∈ regs, r.id ≠ id) :
    (handleHeartbeat regs id now).1 = regs
    ∧ (handleHeartbeat regs id now).2 = { status := "ok", timestamp := now }
    ∧ ∀ (regs2 : List AgentRec) (id2 : String),
        (handleHeartbeat regs2 id2 now).2 = (handleHeartbeat regs id now).2 := by
  refine ⟨?_, rfl, fun _ _ => rfl⟩
  exact map_update_no_match id _ regs h

/-- Claim C10, witness at a one-record registry and a foreign id. -/
theorem heartbeat_unknown_id_witness :
    (handleHeartbeat
        [{ id := "a1", address := "x", capabilities := [], status := "online",
           lastSeen := 3 }] "zz" 9).1
      = [{ id := "a1", address := "x", capabilities := [], status := "online",
           lastSeen := 3 }]
    ∧ (handleHeartbeat
        [{ id := "a1", address := "x", capabilities := [], status := "online",
           lastSeen := 3 }] "zz" 9).2
      = { status := "ok", timestamp := 9 } :=
  ⟨(heartbeat_unknown_id _ "zz" 9 (by decide)).1,
   (heartbeat_unknown_id
      [{ id := "a1", address := "x", capabilities := [], status := "online",
         lastSeen := 3 }] "zz" 9 (by decide)).2.1⟩

end M2M
